import Mathlib

/-!
# Verification of the repub EPUB generator core

A shallow embedding of the data model and core operations of the `repub`
Markdown-to-EPUB converter (`src/main.rs`, `src/repub.rs`), together with
theorems settling the specification claims about:

* the table-of-contents forest builder (`ToC::new` / `ToC::push` /
  `ToCItem::get_latest`),
* manifest and spine rendering (`Items::to_manifest` / `Items::to_spine`),
* the zip packing order and compression methods (`RepubBuilder::make`),
* the build / cleanup state machine (`RepubBuilder::build` /
  `RepubBuilder::remove_tmp_files`),
* command-line configuration handling (`RepubBuilder::new`, the clap
  argument table of `main`).

Rust `Vec` becomes `List`, `u8`/`usize` become `Nat` (with underflow of the
one relevant `u8` subtraction modelled explicitly), `Option`/`Result`
become `Option`/`Except`, and filesystem effects become explicit state
passing over a small record of the paths the program touches.
-/

/-! ## The table-of-contents model (`ToCItem`, `ToC`)

`struct ToCItem { is_dummy, filename, id, title, level, inner_items }`
from `src/repub.rs`.  `inner_items : Vec<ToCItem>` makes this a nested
inductive type.
-/

inductive ToCItem : Type where
  | mk (is_dummy : Bool) (filename : String) (id : Option String)
       (title : String) (level : Nat) (inner_items : List ToCItem)

def ToCItem.is_dummy : ToCItem → Bool
  | .mk d _ _ _ _ _ => d

def ToCItem.filename : ToCItem → String
  | .mk _ f _ _ _ _ => f

def ToCItem.id : ToCItem → Option String
  | .mk _ _ i _ _ _ => i

def ToCItem.title : ToCItem → String
  | .mk _ _ _ t _ _ => t

def ToCItem.level : ToCItem → Nat
  | .mk _ _ _ _ l _ => l

def ToCItem.inner_items : ToCItem → List ToCItem
  | .mk _ _ _ _ _ inner => inner

/-- Rust `ToCItem::default()`: a dummy node with empty text, no anchor, level 1,
no children. -/
def ToCItem.dummy : ToCItem := .mk true "" none "" 1 []

instance : Inhabited ToCItem := ⟨ToCItem.dummy⟩

/-- Replace the last element of a list by `f` of it (the functional image of
mutating through `inner_items.last_mut()`). -/
def modifyLast (f : ToCItem → ToCItem) : List ToCItem → List ToCItem
  | [] => []
  | [x] => [f x]
  | x :: y :: xs => x :: modifyLast f (y :: xs)

/-- Rust `ToCItem::get_latest(level)` followed by `.push(item)` on the returned
mutable reference, as one functional operation.

Source (`ToCTrait for ToCItem`): `get_latest(level)` returns `self` when
`level == 1`, otherwise pushes a `ToCItem::default()` when `inner_items` is
empty, takes the *last* inner item and recurses with `level - 1`; the
caller then appends `item` to the reached node's `inner_items`.
`level = 0` cannot arise from the `h1`–`h5` extractor (and would underflow
the `u8` subtraction in the source); it is mapped to the `level == 1`
behaviour here. -/
def ToCItem.pushLatest : Nat → ToCItem → ToCItem → ToCItem
  | 0, .mk d f i t l inner, item => .mk d f i t l (inner ++ [item])
  | 1, .mk d f i t l inner, item => .mk d f i t l (inner ++ [item])
  | (n+2), .mk d f i t l inner, item =>
    let base := if inner.isEmpty then [ToCItem.dummy] else inner
    .mk d f i t l (modifyLast (fun last => ToCItem.pushLatest (n+1) last item) base)

/-- Rust `struct ToC { inner_items: Vec<ToCItem> }`. -/
structure ToC : Type where
  inner_items : List ToCItem

/-- Rust `ToC::push(toc_item, level)`: at `level == 1` append at the top level,
otherwise `self.get_latest(level - 1).push(toc_item)`, where
`ToC::get_latest(lv)` pushes a `ToCItem::default()` when the top level is
empty and calls `get_latest(lv)` on the *last* top-level item. -/
def ToC.push (t : ToC) (item : ToCItem) (level : Nat) : ToC :=
  if level ≤ 1 then ⟨t.inner_items ++ [item]⟩
  else
    let base := if t.inner_items.isEmpty then [ToCItem.dummy] else t.inner_items
    ⟨modifyLast (fun last => ToCItem.pushLatest (level - 1) last item) base⟩

/-- Rust `ToC::new(toc_items)`: fold `push` over the flat, document-order item
list, starting from the empty forest. -/
def ToC.new (toc_items : List ToCItem) : ToC :=
  toc_items.foldl (fun origin item => origin.push item item.level) ⟨[]⟩

/-! ### Depth of the built forest -/

mutual

/-- Depth of the subtree rooted at one node (a leaf has depth 1). -/
def ToCItem.depth : ToCItem → Nat
  | .mk _ _ _ _ _ inner => 1 + ToCItem.depthList inner

/-- Maximum depth over a list of subtrees (0 for the empty list). -/
def ToCItem.depthList : List ToCItem → Nat
  | [] => 0
  | x :: xs => max (ToCItem.depth x) (ToCItem.depthList xs)

end

/-- Maximum depth of the forest. -/
def ToC.depth (t : ToC) : Nat := ToCItem.depthList t.inner_items

/-- A real (non-dummy) heading record as produced by `toc_from_dom`: no
children yet. -/
def headingItem (filename : String) (id : Option String) (title : String)
    (level : Nat) : ToCItem :=
  .mk false filename id title level []

/-- The claim's counterexample input: document-order headings at levels
2, 3, 2, 4 (all real headings, as extracted from `h2 h3 h2 h4`). -/
def c1Input : List ToCItem :=
  [headingItem "doc" none "a" 2, headingItem "doc" none "b" 3,
   headingItem "doc" none "c" 2, headingItem "doc" none "d" 4]

/-! ## Navigation rendering (`ToCItem::to_nav`, `ToC::to_nav`) -/

/-- The title fragment of `ToCItem::to_nav`: empty for dummy nodes, an
`<a>` hyperlink to `<filename>.xhtml#<id>` when an anchor id is present,
a plain `<span>` otherwise. -/
def ToCItem.nav_title : ToCItem → String
  | .mk d f i t _ _ =>
    if d then ""
    else
      match i with
      | some anchor =>
        "<a href=\"" ++ f ++ ".xhtml#" ++ anchor ++ "\">" ++ t ++ "</a>"
      | none => "<span>" ++ t ++ "</span>"

/-- Rust `ToCItem::to_nav(level)`: one `<li>`, the title fragment, and the
children joined inside an `<ol>` that is marked `hidden="hidden"` when
`self.level >= level`. -/
def ToCItem.to_nav : ToCItem → Nat → String
  | .mk d f i t l inner, level =>
    let inners := inner.attach.map (fun x => ToCItem.to_nav x.1 level)
    let inners_xhtml :=
      if inners.isEmpty then ""
      else if level ≤ l then
        "<ol hidden=\"hidden\">" ++ String.join inners ++ "</ol>"
      else "<ol>" ++ String.join inners ++ "</ol>"
    "<li>\n" ++ (ToCItem.mk d f i t l inner).nav_title ++ "\n"
      ++ inners_xhtml ++ "\n</li>\n"
termination_by x _ => sizeOf x
decreasing_by
  have := List.sizeOf_lt_of_mem x.2
  simp only [ToCItem.mk.sizeOf_spec]
  omega

/-- The stylesheet link inserted for vertical (right-to-left) mode, from
`ToC::to_nav` and `convert` in `src/repub.rs`. -/
def vertical_css_link : String :=
  "<link type=\"text/css\" rel=\"stylesheet\" href=\"styles/vertical.css\" />"

/-- Modelled from the spec: the literal `literals/navigation.xhtml` is not
under `src/`.  Per the spec the navigation document is XHTML with an
`epub:type="toc"` nav element wrapping the rendered forest in a single
ordered list; `ToC::to_nav` interpolates, in order, the title, the
optional vertical stylesheet link, the title again, and the rendered list
items. -/
def navigation_xhtml (doc_title stylesheet_link nav_title inner : String) :
    String :=
  "<?xml version=\"1.0\" encoding=\"UTF-8\"?>\n<html xmlns:epub=\"http://www.idpf.org/2007/ops\"><head><title>"
    ++ doc_title ++ "</title>" ++ stylesheet_link
    ++ "</head><body><nav epub:type=\"toc\"><h1>" ++ nav_title
    ++ "</h1><ol>" ++ inner ++ "</ol></nav></body></html>"

/-- Rust `ToC::to_nav(level, vertical, title)`. -/
def ToC.to_nav (t : ToC) (level : Nat) (vertical : Bool)
    (title : Option String) : String :=
  let inners := t.inner_items.map (fun a => a.to_nav level)
  let inners_xhtml := if inners.isEmpty then "" else String.join inners
  let doc_title := title.getD ""
  navigation_xhtml doc_title
    (if vertical then vertical_css_link else "") doc_title inners_xhtml

/-- A concrete child node used by the C8 witness. -/
def c8Child : ToCItem := .mk false "doc" none "Sub" 3 []

/-! ## Decimal rendering of `usize` (for `format!("book_{}", i)`) -/

/-- Decimal digits of a natural number, most significant first, as produced
by Rust's `Display` for `usize` inside `format!`. -/
def decDigits (n : Nat) : List Char :=
  if n < 10 then [Nat.digitChar n]
  else decDigits (n / 10) ++ [Nat.digitChar (n % 10)]
termination_by n
decreasing_by
  exact Nat.div_lt_self (by omega) (by omega)

/-- Decimal string of a natural number. -/
def natToDec (n : Nat) : String := String.mk (decDigits n)

/-- Numeric value of a decimal digit character. -/
def digitVal (c : Char) : Nat := c.toNat - 48

/-- Value of a digit string read left to right. -/
def listVal (l : List Char) : Nat :=
  l.foldl (fun a c => a * 10 + digitVal c) 0

/-! ## Manifest and spine rendering (`Item`, `Items`) -/

/-- Rust `struct Item { href, media_type }` with
`media_type: "application/xhtml+xml"` as the default. -/
structure Item : Type where
  href : String
  media_type : String

def Item.standard : Item := ⟨"", "application/xhtml+xml"⟩

/-- The positional identifier `book_{i}` shared by `Item::to_manifest` and
`Item::to_spine`. -/
def manifest_id (i : Nat) : String := "book_" ++ natToDec i

/-- Rust `Item::to_manifest(id)`:
`<item id="book_{id}" href="{href}" media-type="{media_type}" />`. -/
def Item.to_manifest (it : Item) (id : Nat) : String :=
  "<item id=\"" ++ manifest_id id ++ "\" href=\"" ++ it.href
    ++ "\" media-type=\"" ++ it.media_type ++ "\" />"

/-- Rust `Item::to_spine(id)`: `<itemref idref="book_{id}" />`. -/
def Item.to_spine (_it : Item) (id : Nat) : String :=
  "<itemref idref=\"" ++ manifest_id id ++ "\" />"

/-- Rust `struct Items { items: Vec<Item> }`. -/
structure Items : Type where
  items : List Item

/-- The manifest lines produced by the `for i in 0..len` loop of
`Items::to_manifest`, starting at index `k`. -/
def manifestLinesFrom : List Item → Nat → List String
  | [], _ => []
  | it :: rest, k => it.to_manifest k :: manifestLinesFrom rest (k + 1)

/-- The spine lines produced by the `for i in 0..len` loop of
`Items::to_spine`, starting at index `k`. -/
def spineLinesFrom : List Item → Nat → List String
  | [], _ => []
  | it :: rest, k => it.to_spine k :: spineLinesFrom rest (k + 1)

def Items.manifest_lines (its : Items) : List String :=
  manifestLinesFrom its.items 0

def Items.spine_lines (its : Items) : List String :=
  spineLinesFrom its.items 0

/-- The identifiers of the manifest items, in order. -/
def manifest_ids (its : Items) : List String :=
  (List.range its.items.length).map manifest_id

/-- Modelled from the spec: the literal `literals/package.opf_manifest` is
not under `src/`; per the spec the manifest block wraps one `<item>` per
content document plus fixed entries for the navigation document and the
stylesheets. -/
def package_opf_manifest (items : String) : String :=
  "<manifest>\n<item id=\"navigation\" href=\"navigation.xhtml\" media-type=\"application/xhtml+xml\" properties=\"nav\" />\n<item id=\"css\" href=\"styles/custom.css\" media-type=\"text/css\" />\n<item id=\"vertical_css\" href=\"styles/vertical.css\" media-type=\"text/css\" />\n"
    ++ items ++ "</manifest>\n"

/-- Rust `Items::to_manifest`. -/
def Items.to_manifest (its : Items) : String :=
  package_opf_manifest
    (String.join (its.manifest_lines.map (fun s => s ++ "\n")))

/-- The part of the spine block shared by the vertical and horizontal
branches of `Items::to_spine`: the navigation itemref first, then the
per-item itemrefs in insertion order, then the closing tag.  In the source
both `format!` calls interpolate exactly these pieces after their opening
tag. -/
def Items.spine_tail (its : Items) : String :=
  "<itemref idref=\"navigation\" />\n"
    ++ String.join (its.spine_lines.map (fun s => s ++ "\n"))
    ++ "</spine>\n"

/-- Rust `Items::to_spine(vertical)`. -/
def Items.to_spine (its : Items) (vertical : Bool) : String :=
  if vertical then
    "<spine page-progression-direction=\"rtl\">\n" ++ its.spine_tail
  else
    "<spine>\n" ++ its.spine_tail

/-- A concrete two-item manifest used by the C3 witness. -/
def c3Items : Items :=
  ⟨[⟨"a.xhtml", "application/xhtml+xml"⟩, ⟨"b.xhtml", "application/xhtml+xml"⟩]⟩

/-! ## Document conversion template (`convert`) -/

/-- Modelled from the spec: the literal `literals/template.xhtml` is not
under `src/`.  Per the spec the fixed XHTML template carries a base
stylesheet link always, the conditional stylesheet link interpolated as
the first `format!` argument of `convert`, then the per-document title
(the file's name) and the converted body. -/
def template_xhtml (stylesheet_link title body : String) : String :=
  "<?xml version=\"1.0\" encoding=\"UTF-8\"?>\n<html xmlns=\"http://www.w3.org/1999/xhtml\"><head><link type=\"text/css\" rel=\"stylesheet\" href=\"styles/custom.css\" />"
    ++ stylesheet_link ++ "<title>" ++ title ++ "</title></head><body>"
    ++ body ++ "</body></html>"

/-- The XHTML document produced by `convert` for one source file, as a
function of the vertical flag, the file name and the converted Markdown
body (the Markdown→HTML conversion itself is an external capability). -/
def convert_html (vertical : Bool) (title body : String) : String :=
  template_xhtml (if vertical then vertical_css_link else "") title body

/-! ## Zip packing (`RepubBuilder::make`) -/

/-- Compression method of one archive entry. -/
inductive CMethod : Type where
  | stored
  | deflated
deriving DecidableEq

/-- One entry written by the `ZipWriter`: its archive path, the path of its
containing directory (`""` for the archive root), whether it is a
directory entry, and its compression method. -/
structure ZipEntry : Type where
  path : String
  parentPath : String
  isDir : Bool
  method : CMethod
deriving DecidableEq

/-- The sequence of entries written by `RepubBuilder::make`, in call order,
for given directory listings: the mimetype file first with
`CompressionMethod::Stored`, then the `META-INF` directory entry and its
files, then the `OEBPS` directory entry and its immediate files, then the
`OEBPS/styles` directory entry and its files.  `META-INF` entries use the
explicit `CompressionMethod::Deflated`; the `OEBPS` and `styles` file
loops use `FileOptions::default()`, whose compression method is modelled
from the spec (the zip crate is not under `src/`): "every other entry …
is written with a compressed method", i.e. deflated. -/
def make_entries (metaInfFiles oebpsFiles stylesFiles : List String) :
    List ZipEntry :=
  ⟨"mimetype", "", false, .stored⟩ ::
  ⟨"META-INF/", "", true, .deflated⟩ ::
  (metaInfFiles.map
      (fun f => ⟨"META-INF/" ++ f, "META-INF/", false, .deflated⟩)
   ++ ⟨"OEBPS/", "", true, .deflated⟩ ::
     (oebpsFiles.map
         (fun f => ⟨"OEBPS/" ++ f, "OEBPS/", false, .deflated⟩)
      ++ ⟨"OEBPS/styles/", "OEBPS/", true, .deflated⟩ ::
        stylesFiles.map
          (fun f => ⟨"OEBPS/styles/" ++ f, "OEBPS/styles/", false,
            .deflated⟩)))

/-! ## Build and cleanup (`RepubBuilder::build`, `remove_tmp_files`)

`build_core` creates the working tree step by step; each helper records
the path it created in `self.tmp_files` only *after* all its writes
succeeded.  The fallible primitive operations, in source order, are
numbered:

0. `add_mimetype`: `File::create(mimetype_path)`;
1. `add_mimetype`: `mimetype.write_all(..)` — on failure the mimetype file
   already exists on disk but `tmp_files.mimetype` is still `None`;
   on success the path is recorded;
2. `add_meta_inf`: `create_dir_all(META-INF)`;
3. `add_meta_inf`: `File::create(container.xml)` / `write_all` — on failure
   the `META-INF` tree exists unrecorded; on success it is recorded;
4. `add_oebps`: `create_dir_all(OEBPS)`;
5. `add_oebps`: `styles` dir, `vertical.css` create + write, `custom.css`
   create — on failure the `OEBPS` tree exists unrecorded; on success it
   is recorded;
6. everything after `add_oebps` (custom css copy, conversion,
   `package.opf`, `navigation.xhtml`, zip packing) — all three paths are
   recorded by then.
-/

/-- Which of the three `TmpFiles` path options have been set (`Some`). -/
structure TmpFilesRec : Type where
  mimetype : Bool
  meta_inf : Bool
  oebps : Bool
deriving DecidableEq

/-- Which of the three working-tree paths exist on disk. -/
structure WorkFS : Type where
  mimetypeFile : Bool
  metaInfDir : Bool
  oebpsDir : Bool
deriving DecidableEq

/-- Rust `RepubBuilder::build_core`, abstracted over the first failing primitive
operation (`none` = no failure).  Returns (success, recorded paths, paths
existing on disk). -/
def build_core (failAt : Option Nat) : Bool × TmpFilesRec × WorkFS :=
  if failAt = some 0 then
    (false, ⟨false, false, false⟩, ⟨false, false, false⟩)
  else if failAt = some 1 then
    (false, ⟨false, false, false⟩, ⟨true, false, false⟩)
  else if failAt = some 2 then
    (false, ⟨true, false, false⟩, ⟨true, false, false⟩)
  else if failAt = some 3 then
    (false, ⟨true, false, false⟩, ⟨true, true, false⟩)
  else if failAt = some 4 then
    (false, ⟨true, true, false⟩, ⟨true, true, false⟩)
  else if failAt = some 5 then
    (false, ⟨true, true, false⟩, ⟨true, true, true⟩)
  else if failAt = some 6 then
    (false, ⟨true, true, true⟩, ⟨true, true, true⟩)
  else
    (true, ⟨true, true, true⟩, ⟨true, true, true⟩)

/-- Rust `RepubBuilder::remove_tmp_files`: remove exactly the recorded paths
(`mimetype.clone().map(remove_file)` etc.); an unrecorded path is left
alone. -/
def remove_tmp_files (tmp : TmpFilesRec) (fs : WorkFS) : WorkFS :=
  ⟨fs.mimetypeFile && !tmp.mimetype,
   fs.metaInfDir && !tmp.meta_inf,
   fs.oebpsDir && !tmp.oebps⟩

/-- Rust `RepubBuilder::build`: run `build_core`, then, unless `save_tmp_files`
is set, remove the recorded temporary paths — on success and on failure
alike; return `build_core`'s result. -/
def build (failAt : Option Nat) (save_tmp_files : Bool) : Bool × WorkFS :=
  let r := build_core failAt
  if !save_tmp_files then (r.1, remove_tmp_files r.2.1 r.2.2)
  else (r.1, r.2.2)

/-! ## `--toc-level` parsing (`RepubBuilder::new`) -/

/-- Rust `str::parse::<u8>()`: an optional leading `+`, then one or more
decimal digits, with value at most 255; anything else is `Err`. -/
def parse_u8 (s : String) : Option Nat :=
  let ds :=
    match s.data with
    | '+' :: rest => rest
    | l => l
  if ds.isEmpty then none
  else if ds.all Char.isDigit then
    if listVal ds < 256 then some (listVal ds) else none
  else none

/-- Outcome of the `toc_level` assignment in `RepubBuilder::new`. -/
inductive TocLevelOutcome : Type where
  | ok (value : Nat) (warned : Bool)
  | panic
deriving DecidableEq

/-- The `toc_level` branch of `RepubBuilder::new`:
`match level.parse::<u8>() { Ok(ok) => ok - 1, Err(_) => { warning; 2 } }`.
The subtraction `ok - 1` is on `u8`: for the parsed value 0 it underflows
(a panic in debug builds, wrap-around to 255 in release builds), modelled
as `panic`. -/
def set_toc_level (s : String) : TocLevelOutcome :=
  match parse_u8 s with
  | some ok => if ok = 0 then .panic else .ok (ok - 1) false
  | none => .ok 2 true

/-- The C5 side condition in the spec's words: the supplied value "is an
integer ≥ 1" (optional sign, decimal digits, value at least 1, no
magnitude bound). -/
def represents_int_ge1 (s : String) : Bool :=
  let ds :=
    match s.data with
    | '+' :: rest => rest
    | l => l
  !ds.isEmpty && ds.all Char.isDigit && decide (1 ≤ listVal ds)

/-! ## The command-line surface (`main`) -/

/-- The argument names registered on the clap `App` in `main`: the `input`
positional plus `title`, `creator`, `language`, `book_id`, `vertical`,
`style` and `toc_level`.  No retention (`save_tmp_files`) argument is
registered. -/
def registered_args : List String :=
  ["input", "title", "creator", "language", "book_id", "vertical", "style",
   "toc_level"]

/-- A parsed command line: the argument names present on it. -/
structure ArgMatches : Type where
  supplied : List String

/-- clap rejects an invocation mentioning an argument the `App` does not
define, so any `ArgMatches` reaching `RepubBuilder::new` only carries
registered names. -/
def ArgMatches.valid (m : ArgMatches) : Prop :=
  ∀ a ∈ m.supplied, a ∈ registered_args

/-- Rust `ArgMatches::is_present(name)`. -/
def ArgMatches.is_present (m : ArgMatches) (name : String) : Bool :=
  m.supplied.contains name

/-- The `save_tmp_files` field of the builder, set in `RepubBuilder::new`
as `matches.is_present("save_tmp_files")`. -/
def save_tmp_files_of (m : ArgMatches) : Bool :=
  m.is_present "save_tmp_files"

/-! ## Input validation (`RepubBuilder::new`) -/

/-- What `RepubBuilder::new` observes about the input path. -/
structure PathInfo : Type where
  pathExists : Bool
  is_file : Bool
  extension : Option String

/-- The input-validation prefix of `RepubBuilder::new`: error when the
path does not exist; then, for a file, error when its extension is present
and differs from `md` (`None => {}` accepts a file without extension); a
directory is accepted without an extension check.  Returns the error
message, `none` on acceptance. -/
def validate_input (p : PathInfo) : Option String :=
  if !p.pathExists then some "does not exist"
  else if p.is_file then
    match p.extension with
    | none => none
    | some ext => if ext ≠ "md" then some "is not .md file" else none
  else none

/-- The filesystem paths created by `RepubBuilder::new` itself: none — the
constructor only reads (`current_dir`, `exists`, `is_file`, `extension`)
and prompts on the console; every create/write call of the program lives
in `build_core` and its helpers. -/
def new_created_paths : List String := []

/-- The conversion dispatch of `build_core`: a source path that is a file
is converted directly — regardless of its extension; for a directory the
entries (path, extension) are sorted by path and exactly those with
extension `md` are converted. -/
def files_to_convert (source_is_file : Bool) (source : String)
    (entries : List (String × Option String)) : List String :=
  if source_is_file then [source]
  else
    ((entries.mergeSort (fun a b => decide (a.1 ≤ b.1))).filter
        (fun e => e.2 == some "md")).map Prod.fst

/-! ## Theorems -/

theorem ToCItem.depth_mk (d : Bool) (f : String) (i : Option String)
    (t : String) (l : Nat) (inner : List ToCItem) :
    (ToCItem.mk d f i t l inner).depth = 1 + ToCItem.depthList inner := by
  simp [ToCItem.depth]

theorem ToCItem.one_le_depth (x : ToCItem) : 1 ≤ x.depth := by
  cases x with
  | mk d f i t l inner => rw [ToCItem.depth_mk]; omega

theorem ToCItem.depthList_nil : ToCItem.depthList [] = 0 := by
  simp [ToCItem.depthList]

theorem ToCItem.depthList_cons (x : ToCItem) (xs : List ToCItem) :
    ToCItem.depthList (x :: xs) = max x.depth (ToCItem.depthList xs) := by
  simp [ToCItem.depthList]

theorem ToCItem.depthList_append_singleton (l : List ToCItem) (x : ToCItem) :
    ToCItem.depthList (l ++ [x]) = max (ToCItem.depthList l) x.depth := by
  induction l with
  | nil => simp [ToCItem.depthList_nil, ToCItem.depthList_cons]
  | cons y ys ih =>
    simp only [List.cons_append, ToCItem.depthList_cons, ih]
    omega

theorem depthList_modifyLast (f : ToCItem → ToCItem) (K : Nat)
    (hf : ∀ x, (f x).depth = max x.depth K) :
    ∀ l : List ToCItem, l ≠ [] →
      ToCItem.depthList (modifyLast f l) = max (ToCItem.depthList l) K := by
  intro l
  induction l with
  | nil => intro h; exact absurd rfl h
  | cons y ys ih =>
    intro _
    cases ys with
    | nil =>
      simp [modifyLast, ToCItem.depthList_cons, ToCItem.depthList_nil, hf]
    | cons z zs =>
      have h2 := ih (by simp)
      simp only [modifyLast, ToCItem.depthList_cons] at h2 ⊢
      omega

theorem ToCItem.pushLatest_depth (lv : Nat) (x item : ToCItem) :
    (ToCItem.pushLatest lv x item).depth = max x.depth (max 1 lv + item.depth) := by
  induction lv generalizing x with
  | zero =>
    cases x with
    | mk d f i t l inner =>
      simp [ToCItem.pushLatest, ToCItem.depth_mk,
        ToCItem.depthList_append_singleton]
      omega
  | succ n ih =>
    cases n with
    | zero =>
      cases x with
      | mk d f i t l inner =>
        simp [ToCItem.pushLatest, ToCItem.depth_mk,
          ToCItem.depthList_append_singleton]
        omega
    | succ m =>
      cases x with
      | mk d f i t l inner =>
        have hitem := ToCItem.one_le_depth item
        have hK : ∀ z : ToCItem,
            (ToCItem.pushLatest (m+1) z item).depth
              = max z.depth (max 1 (m+1) + item.depth) := fun z => ih z
        by_cases hinner : inner.isEmpty
        · have : inner = [] := by
            cases inner with
            | nil => rfl
            | cons _ _ => simp [List.isEmpty] at hinner
          subst this
          simp only [ToCItem.pushLatest, List.isEmpty_nil, if_true,
            ToCItem.depth_mk]
          rw [depthList_modifyLast _ _ hK [ToCItem.dummy] (by simp)]
          simp [ToCItem.depthList_cons, ToCItem.depthList_nil, ToCItem.dummy,
            ToCItem.depth_mk]
          omega
        · have hne : inner ≠ [] := by
            cases inner with
            | nil => simp [List.isEmpty] at hinner
            | cons _ _ => simp
          simp only [ToCItem.pushLatest, hinner, if_false, Bool.false_eq_true,
            ToCItem.depth_mk]
          rw [depthList_modifyLast _ _ hK inner hne]
          omega

theorem ToC.push_depth (t : ToC) (item : ToCItem) (level : Nat) :
    (t.push item level).depth = max t.depth ((level - 1) + item.depth) := by
  have hitem := ToCItem.one_le_depth item
  by_cases hlev : level ≤ 1
  · simp only [ToC.push, hlev, if_true, ToC.depth,
      ToCItem.depthList_append_singleton]
    omega
  · have hK : ∀ z : ToCItem,
        (ToCItem.pushLatest (level - 1) z item).depth
          = max z.depth (max 1 (level - 1) + item.depth) :=
      fun z => ToCItem.pushLatest_depth (level - 1) z item
    simp only [ToC.push, hlev, if_false]
    by_cases hinner : t.inner_items.isEmpty
    · have h0 : t.inner_items = [] := by
        cases h : t.inner_items with
        | nil => rfl
        | cons _ _ => rw [h] at hinner; simp [List.isEmpty] at hinner
      simp only [hinner, if_true, ToC.depth]
      rw [depthList_modifyLast _ _ hK [ToCItem.dummy] (by simp)]
      simp [ToCItem.depthList_cons, ToCItem.depthList_nil, ToCItem.dummy,
        ToCItem.depth_mk, h0]
      omega
    · have hne : t.inner_items ≠ [] := by
        cases h : t.inner_items with
        | nil => rw [h] at hinner; simp [List.isEmpty] at hinner
        | cons _ _ => simp
      simp only [hinner, if_false, Bool.false_eq_true, ToC.depth]
      rw [depthList_modifyLast _ _ hK t.inner_items hne]
      omega

/-- C1, counterexample: the spec says input levels `[2,3,2,4]` yield a
forest of maximum depth 3 (the number of distinct depth transitions).  The
code nests by *raw* numeric level — `ToC::push` descends `level - 1` steps
from the root, synthesizing dummy ancestors — so this input yields depth 4,
and the claim as stated is false. -/
theorem c1_depth_not_transition_count :
    (ToC.new c1Input).depth = 4 ∧ (ToC.new c1Input).depth ≠ 3 := by
  constructor
  · simp [ToC.new, ToC.push, ToCItem.pushLatest, c1Input, headingItem,
      ToCItem.level, ToCItem.dummy, modifyLast, ToC.depth, ToCItem.depth,
      ToCItem.depthList, ToC.inner_items]
  · simp [ToC.new, ToC.push, ToCItem.pushLatest, c1Input, headingItem,
      ToCItem.level, ToCItem.dummy, modifyLast, ToC.depth, ToCItem.depth,
      ToCItem.depthList, ToC.inner_items]

/-- C1, amended: for every flat, document-order sequence of heading records
(childless nodes with level ≥ 1, as produced by the `h1`–`h5` extractor),
the forest built by `ToC::new` nests by the raw numeric heading level: its
maximum depth equals the *maximum numeric level* occurring in the input
(0 for the empty input), not the number of distinct depth transitions;
e.g. levels `[2,3,2,4]` yield depth 4. -/
theorem c1_toc_new_depth_eq_max_raw_level (items : List ToCItem)
    (hleaf : ∀ it ∈ items, it.inner_items = [])
    (hlevel : ∀ it ∈ items, 1 ≤ it.level) :
    (ToC.new items).depth = items.foldl (fun a it => max a it.level) 0 := by
  have key : ∀ (t : ToC),
      (items.foldl (fun origin item => origin.push item item.level) t).depth
        = items.foldl (fun a it => max a it.level) t.depth := by
    induction items with
    | nil => intro t; simp
    | cons x xs ih =>
      intro t
      have hx1 : x.inner_items = [] := hleaf x (by simp)
      have hx2 : 1 ≤ x.level := hlevel x (by simp)
      have hdx : x.depth = 1 := by
        cases x with
        | mk d f i t' l inner =>
          simp only [ToCItem.inner_items] at hx1
          subst hx1
          simp [ToCItem.depth_mk, ToCItem.depthList_nil]
      have ih' := ih (fun it h => hleaf it (by simp [h]))
        (fun it h => hlevel it (by simp [h]))
      simp only [List.foldl_cons]
      have hx : x.level - 1 + 1 = x.level := by omega
      rw [ih' (t.push x x.level), ToC.push_depth, hdx, hx]
  have h0 : (⟨[]⟩ : ToC).depth = 0 := by
    simp [ToC.depth, ToCItem.depthList_nil]
  rw [ToC.new, key ⟨[]⟩, h0]

/-- C1, witness for the amended theorem at the concrete input `c1Input`. -/
theorem c1_toc_new_depth_eq_max_raw_level_witness :
    (ToC.new c1Input).depth
      = c1Input.foldl (fun a it => max a it.level) 0 :=
  c1_toc_new_depth_eq_max_raw_level c1Input
    (by intro it h; fin_cases h <;> rfl)
    (by intro it h; fin_cases h <;> simp [c1Input, headingItem, ToCItem.level])

/-- Unfolding equation for `ToCItem.to_nav` with the `attach` eliminated. -/
theorem ToCItem.to_nav_mk (d : Bool) (f : String) (i : Option String)
    (t : String) (l : Nat) (inner : List ToCItem) (level : Nat) :
    (ToCItem.mk d f i t l inner).to_nav level =
      "<li>\n" ++ (ToCItem.mk d f i t l inner).nav_title ++ "\n"
        ++ (if (inner.map (fun x => x.to_nav level)).isEmpty then ""
            else if level ≤ l then
              "<ol hidden=\"hidden\">"
                ++ String.join (inner.map (fun x => x.to_nav level)) ++ "</ol>"
            else "<ol>" ++ String.join (inner.map (fun x => x.to_nav level))
              ++ "</ol>")
        ++ "\n</li>\n" := by
  have h : (inner.attach.map fun x => ToCItem.to_nav x.1 level)
      = inner.map (fun x => ToCItem.to_nav x level) :=
    List.attach_map_coe inner (fun x => ToCItem.to_nav x level)
  rw [ToCItem.to_nav, h]

/-- C8: for every node and configured expansion depth, the children list is
wrapped as `<ol hidden="hidden">` exactly when the node has children and
its own level is ≥ the configured depth; a node with an anchor id renders
as a hyperlink to `<filename>.xhtml#<anchor>`, a node without an anchor as
a plain `<span>`, and a dummy (placeholder) node renders an empty title
while still rendering its children's list. -/
theorem c8_to_nav_rendering (d : Bool) (f : String) (i : Option String)
    (t : String) (l : Nat) (inner : List ToCItem) (level : Nat) :
    (inner ≠ [] ∧ level ≤ l →
      (ToCItem.mk d f i t l inner).to_nav level =
        "<li>\n" ++ (ToCItem.mk d f i t l inner).nav_title ++ "\n"
          ++ ("<ol hidden=\"hidden\">"
              ++ String.join (inner.map (fun x => x.to_nav level)) ++ "</ol>")
          ++ "\n</li>\n") ∧
    (inner ≠ [] ∧ l < level →
      (ToCItem.mk d f i t l inner).to_nav level =
        "<li>\n" ++ (ToCItem.mk d f i t l inner).nav_title ++ "\n"
          ++ ("<ol>" ++ String.join (inner.map (fun x => x.to_nav level))
              ++ "</ol>")
          ++ "\n</li>\n") ∧
    (inner = [] →
      (ToCItem.mk d f i t l inner).to_nav level =
        "<li>\n" ++ (ToCItem.mk d f i t l inner).nav_title ++ "\n"
          ++ "" ++ "\n</li>\n") ∧
    (d = true → (ToCItem.mk d f i t l inner).nav_title = "") ∧
    (∀ anchor, d = false → i = some anchor →
      (ToCItem.mk d f i t l inner).nav_title =
        "<a href=\"" ++ f ++ ".xhtml#" ++ anchor ++ "\">" ++ t ++ "</a>") ∧
    (d = false → i = none →
      (ToCItem.mk d f i t l inner).nav_title = "<span>" ++ t ++ "</span>") := by
  refine ⟨?_, ?_, ?_, ?_, ?_, ?_⟩
  · rintro ⟨hne, hlev⟩
    rw [ToCItem.to_nav_mk]
    have hmap : (inner.map (fun x => x.to_nav level)).isEmpty = false := by
      cases inner with
      | nil => exact absurd rfl hne
      | cons _ _ => simp
    simp [hmap, hlev]
  · rintro ⟨hne, hlev⟩
    rw [ToCItem.to_nav_mk]
    have hmap : (inner.map (fun x => x.to_nav level)).isEmpty = false := by
      cases inner with
      | nil => exact absurd rfl hne
      | cons _ _ => simp
    have : ¬ level ≤ l := by omega
    simp [hmap, this]
  · intro h
    subst h
    rw [ToCItem.to_nav_mk]
    simp
  · intro h
    subst h
    simp [ToCItem.nav_title]
  · intro anchor hd hi
    subst hd
    subst hi
    simp [ToCItem.nav_title]
  · intro hd hi
    subst hd
    subst hi
    simp [ToCItem.nav_title]

/-- C8, witness: the hidden-wrap case at a concrete node of level 2 with one
child, rendered with configured depth 2. -/
theorem c8_to_nav_rendering_witness :
    (ToCItem.mk false "doc" (some "h") "T" 2 [c8Child]).to_nav 2 =
      "<li>\n" ++ (ToCItem.mk false "doc" (some "h") "T" 2 [c8Child]).nav_title
        ++ "\n"
        ++ ("<ol hidden=\"hidden\">"
            ++ String.join ([c8Child].map (fun x => x.to_nav 2)) ++ "</ol>")
        ++ "\n</li>\n" :=
  (c8_to_nav_rendering false "doc" (some "h") "T" 2 [c8Child] 2).1
    ⟨by simp, by omega⟩

theorem digitVal_digitChar (n : Nat) (h : n < 10) :
    digitVal (Nat.digitChar n) = n := by
  interval_cases n <;> rfl

theorem listVal_append_digit (l : List Char) (c : Char) :
    listVal (l ++ [c]) = listVal l * 10 + digitVal c := by
  simp [listVal, List.foldl_append]

theorem listVal_decDigits (n : Nat) : listVal (decDigits n) = n := by
  induction n using Nat.strong_induction_on with
  | _ n ih =>
    rw [decDigits]
    by_cases h : n < 10
    · simp [h, listVal, digitVal_digitChar n h]
    · simp only [h, if_false]
      rw [listVal_append_digit,
        ih (n / 10) (Nat.div_lt_self (by omega) (by omega)),
        digitVal_digitChar _ (Nat.mod_lt _ (by omega))]
      omega

theorem natToDec_injective : Function.Injective natToDec := by
  intro a b h
  have hd : decDigits a = decDigits b := congrArg String.data h
  have hv := congrArg listVal hd
  rwa [listVal_decDigits, listVal_decDigits] at hv

theorem manifest_id_injective : Function.Injective manifest_id := by
  intro a b h
  apply natToDec_injective
  have hd := congrArg String.data h
  simp only [manifest_id, String.data_append] at hd
  exact String.ext (List.append_cancel_left hd)

theorem manifestLinesFrom_getElem :
    ∀ (l : List Item) (k i : Nat) (it : Item), l[i]? = some it →
      (manifestLinesFrom l k)[i]? = some (it.to_manifest (k + i)) := by
  intro l
  induction l with
  | nil => intro k i it h; simp at h
  | cons x xs ih =>
    intro k i it h
    cases i with
    | zero =>
      simp only [List.getElem?_cons_zero, Option.some.injEq] at h
      subst h
      simp [manifestLinesFrom]
    | succ j =>
      simp only [List.getElem?_cons_succ] at h
      have h2 := ih (k + 1) j it h
      simp only [manifestLinesFrom, List.getElem?_cons_succ, h2,
        Option.some.injEq]
      congr 1
      omega

theorem spineLinesFrom_getElem :
    ∀ (l : List Item) (k i : Nat) (it : Item), l[i]? = some it →
      (spineLinesFrom l k)[i]? = some (it.to_spine (k + i)) := by
  intro l
  induction l with
  | nil => intro k i it h; simp at h
  | cons x xs ih =>
    intro k i it h
    cases i with
    | zero =>
      simp only [List.getElem?_cons_zero, Option.some.injEq] at h
      subst h
      simp [spineLinesFrom]
    | succ j =>
      simp only [List.getElem?_cons_succ] at h
      have h2 := ih (k + 1) j it h
      simp only [spineLinesFrom, List.getElem?_cons_succ, h2,
        Option.some.injEq]
      congr 1
      omega

/-- C3: the manifest line at position `i` and the spine line at position
`i` carry the *same* positional identifier `book_i`; that identifier
occurs exactly once among the manifest identifiers; and for either value
of the vertical flag the spine block opens with the navigation itemref
before the content itemrefs, which appear in manifest insertion order. -/
theorem c3_manifest_spine_positional_ids (its : Items) (i : Nat) (it : Item)
    (h : its.items[i]? = some it) :
    (its.manifest_lines)[i]? =
      some ("<item id=\"" ++ manifest_id i ++ "\" href=\"" ++ it.href
        ++ "\" media-type=\"" ++ it.media_type ++ "\" />") ∧
    (its.spine_lines)[i]? =
      some ("<itemref idref=\"" ++ manifest_id i ++ "\" />") ∧
    (manifest_ids its).count (manifest_id i) = 1 ∧
    (∀ v : Bool, its.to_spine v =
      (if v then "<spine page-progression-direction=\"rtl\">\n"
       else "<spine>\n")
      ++ ("<itemref idref=\"navigation\" />\n"
          ++ (String.join (its.spine_lines.map (fun s => s ++ "\n"))
              ++ "</spine>\n"))) := by
  have hlen : i < its.items.length := by
    by_contra hc
    rw [List.getElem?_eq_none (by omega)] at h
    exact Option.noConfusion h
  refine ⟨?_, ?_, ?_, ?_⟩
  · have := manifestLinesFrom_getElem its.items 0 i it h
    simpa [Items.manifest_lines, Item.to_manifest] using this
  · have := spineLinesFrom_getElem its.items 0 i it h
    simpa [Items.spine_lines, Item.to_spine] using this
  · have hnd : (manifest_ids its).Nodup :=
      List.Nodup.map manifest_id_injective (List.nodup_range _)
    exact List.count_eq_one_of_mem hnd
      (List.mem_map_of_mem _ (List.mem_range.mpr hlen))
  · intro v
    cases v <;>
      simp [Items.to_spine, Items.spine_tail, String.append_assoc]

/-- C3, witness at position 1 of a concrete two-item manifest. -/
theorem c3_manifest_spine_positional_ids_witness :
    (c3Items.manifest_lines)[1]? =
      some ("<item id=\"" ++ manifest_id 1 ++ "\" href=\"" ++ "b.xhtml"
        ++ "\" media-type=\"" ++ "application/xhtml+xml" ++ "\" />") ∧
    (c3Items.spine_lines)[1]? =
      some ("<itemref idref=\"" ++ manifest_id 1 ++ "\" />") ∧
    (manifest_ids c3Items).count (manifest_id 1) = 1 ∧
    (∀ v : Bool, c3Items.to_spine v =
      (if v then "<spine page-progression-direction=\"rtl\">\n"
       else "<spine>\n")
      ++ ("<itemref idref=\"navigation\" />\n"
          ++ (String.join (c3Items.spine_lines.map (fun s => s ++ "\n"))
              ++ "</spine>\n"))) :=
  c3_manifest_spine_positional_ids c3Items 1
    ⟨"b.xhtml", "application/xhtml+xml"⟩ rfl

theorem template_xhtml_vertical_link (title body : String) :
    ∃ l r, template_xhtml vertical_css_link title body
      = l ++ (vertical_css_link ++ r) :=
  ⟨"<?xml version=\"1.0\" encoding=\"UTF-8\"?>\n<html xmlns=\"http://www.w3.org/1999/xhtml\"><head><link type=\"text/css\" rel=\"stylesheet\" href=\"styles/custom.css\" />",
   "<title>" ++ title ++ "</title></head><body>" ++ body ++ "</body></html>",
   by simp [template_xhtml, String.append_assoc]⟩

theorem navigation_xhtml_vertical_link (dt nt inner : String) :
    ∃ l r, navigation_xhtml dt vertical_css_link nt inner
      = l ++ (vertical_css_link ++ r) :=
  ⟨"<?xml version=\"1.0\" encoding=\"UTF-8\"?>\n<html xmlns:epub=\"http://www.idpf.org/2007/ops\"><head><title>"
     ++ dt ++ "</title>",
   "</head><body><nav epub:type=\"toc\"><h1>" ++ nt ++ "</h1><ol>" ++ inner
     ++ "</ol></nav></body></html>",
   by simp [navigation_xhtml, String.append_assoc]⟩

/-- C7: with the vertical flag set the spine block opens with
`page-progression-direction="rtl"` but carries the *same* itemref tail (in
particular the same itemrefs in the same order) as without the flag; and
every generated XHTML content document as well as the navigation document
contains the vertical stylesheet link. -/
theorem c7_vertical_rendering (its : Items) (t : ToC) (lvl : Nat)
    (title name body : String) :
    its.to_spine true =
      "<spine page-progression-direction=\"rtl\">\n" ++ its.spine_tail ∧
    its.to_spine false = "<spine>\n" ++ its.spine_tail ∧
    (∃ l r, convert_html true name body = l ++ (vertical_css_link ++ r)) ∧
    (∃ l r, t.to_nav lvl true (some title)
      = l ++ (vertical_css_link ++ r)) := by
  refine ⟨by simp [Items.to_spine], by simp [Items.to_spine], ?_, ?_⟩
  · simpa [convert_html] using template_xhtml_vertical_link name body
  · have h : t.to_nav lvl true (some title)
        = navigation_xhtml title vertical_css_link title
            (if (t.inner_items.map (fun a => a.to_nav lvl)).isEmpty then ""
             else String.join (t.inner_items.map (fun a => a.to_nav lvl))) := by
      simp [ToC.to_nav]
    rw [h]
    exact navigation_xhtml_vertical_link title title _

/-- C2: for all directory listings, the mimetype entry is the first archive
entry and is stored uncompressed; every other entry uses the compressed
(deflated) method; and every file entry below a directory is preceded in
the write order by its containing directory's entry. -/
theorem c2_zip_entry_layout (mf odf sf : List String) :
    (make_entries mf odf sf).head? = some ⟨"mimetype", "", false, .stored⟩ ∧
    (∀ e ∈ (make_entries mf odf sf).drop 1, e.method = .deflated) ∧
    (∀ e ∈ make_entries mf odf sf, e.isDir = false → e.parentPath ≠ "" →
      ∃ d : ZipEntry, d.isDir = true ∧ d.path = e.parentPath ∧
        List.Sublist [d, e] (make_entries mf odf sf)) := by
  refine ⟨rfl, ?_, ?_⟩
  · intro e he
    simp only [make_entries, List.drop_succ_cons, List.drop_zero,
      List.mem_cons, List.mem_append, List.mem_map] at he
    rcases he with rfl | he
    · rfl
    rcases he with ⟨f, _, rfl⟩ | he
    · rfl
    rcases he with rfl | he
    · rfl
    rcases he with ⟨f, _, rfl⟩ | he
    · rfl
    rcases he with rfl | ⟨f, _, rfl⟩ <;> rfl
  · intro e he hfile hparent
    simp only [make_entries, List.mem_cons, List.mem_append,
      List.mem_map] at he
    rcases he with rfl | he
    · exact absurd rfl hparent
    rcases he with rfl | he
    · simp at hfile
    rcases he with ⟨f, hf, rfl⟩ | he
    · refine ⟨⟨"META-INF/", "", true, .deflated⟩, rfl, rfl, ?_⟩
      simp only [make_entries]
      refine List.Sublist.cons _ (List.Sublist.cons₂ _ ?_)
      have hmem : (⟨"META-INF/" ++ f, "META-INF/", false, .deflated⟩ : ZipEntry)
          ∈ List.map (fun g =>
            (⟨"META-INF/" ++ g, "META-INF/", false, .deflated⟩ : ZipEntry)) mf :=
        List.mem_map.mpr ⟨f, hf, rfl⟩
      exact (List.singleton_sublist.mpr hmem).trans
        (List.sublist_append_left _ _)
    rcases he with rfl | he
    · simp at hfile
    rcases he with ⟨f, hf, rfl⟩ | he
    · refine ⟨⟨"OEBPS/", "", true, .deflated⟩, rfl, rfl, ?_⟩
      simp only [make_entries]
      refine List.Sublist.cons _ (List.Sublist.cons _ ?_)
      refine List.Sublist.trans ?_ (List.sublist_append_right _ _)
      refine List.Sublist.cons₂ _ ?_
      have hmem : (⟨"OEBPS/" ++ f, "OEBPS/", false, .deflated⟩ : ZipEntry)
          ∈ List.map (fun g =>
            (⟨"OEBPS/" ++ g, "OEBPS/", false, .deflated⟩ : ZipEntry)) odf :=
        List.mem_map.mpr ⟨f, hf, rfl⟩
      exact (List.singleton_sublist.mpr hmem).trans
        (List.sublist_append_left _ _)
    rcases he with rfl | ⟨f, hf, rfl⟩
    · simp at hfile
    · refine ⟨⟨"OEBPS/styles/", "OEBPS/", true, .deflated⟩, rfl, rfl, ?_⟩
      simp only [make_entries]
      refine List.Sublist.cons _ (List.Sublist.cons _ ?_)
      refine List.Sublist.trans ?_ (List.sublist_append_right _ _)
      refine List.Sublist.cons _ ?_
      refine List.Sublist.trans ?_ (List.sublist_append_right _ _)
      refine List.Sublist.cons₂ _ ?_
      exact List.singleton_sublist.mpr (List.mem_map.mpr ⟨f, hf, rfl⟩)

/-- C2, witness at a concrete listing: the container descriptor file entry
is preceded by its `META-INF/` directory entry. -/
theorem c2_zip_entry_layout_witness :
    ∃ d : ZipEntry, d.isDir = true ∧ d.path = "META-INF/" ∧
      List.Sublist
        [d, ⟨"META-INF/container.xml", "META-INF/", false, .deflated⟩]
        (make_entries ["container.xml"] [] []) :=
  (c2_zip_entry_layout ["container.xml"] [] []).2.2
    ⟨"META-INF/container.xml", "META-INF/", false, .deflated⟩
    (by simp [make_entries]) rfl (by decide)

/-- C4, counterexample: when the mimetype `write_all` fails (operation 1)
after `File::create` succeeded, the mimetype file exists but was never
recorded in `tmp_files`, so cleanup — which does run — leaves it on disk:
the working tree created so far is *not* fully removed even though
retention was not requested. -/
theorem c4_cleanup_leak_counterexample :
    build (some 1) false = (false, ⟨true, false, false⟩) ∧
    (build (some 1) false).2 ≠ ⟨false, false, false⟩ := by
  exact ⟨by decide, by decide⟩

/-- C4, amended: after `build`, when retention is requested the working
tree is left untouched on success and failure alike; when retention is not
requested, every path *recorded* in `tmp_files` is removed, on success and
failure alike, and on success (where all three paths are recorded) the
working tree is fully removed.  A path whose creation succeeded but whose
recording step was not reached (operations 1, 3 and 5) survives cleanup. -/
theorem c4_cleanup_removes_recorded_paths (failAt : Option Nat)
    (save : Bool) :
    (save = true → (build failAt save).2 = (build_core failAt).2.2) ∧
    (save = false →
      ((build_core failAt).2.1.mimetype = true →
        (build failAt save).2.mimetypeFile = false) ∧
      ((build_core failAt).2.1.meta_inf = true →
        (build failAt save).2.metaInfDir = false) ∧
      ((build_core failAt).2.1.oebps = true →
        (build failAt save).2.oebpsDir = false)) ∧
    (save = false → (build_core failAt).1 = true →
      (build failAt save).2 = ⟨false, false, false⟩) := by
  refine ⟨?_, ?_, ?_⟩
  · intro hs
    subst hs
    simp [build]
  · intro hs
    subst hs
    refine ⟨?_, ?_, ?_⟩ <;>
      (intro h; simp [build, remove_tmp_files, h])
  · intro hs hok
    subst hs
    have htmp : (build_core failAt).2.1 = ⟨true, true, true⟩ := by
      unfold build_core at hok ⊢
      split_ifs at hok ⊢
      all_goals simp_all
    simp [build, remove_tmp_files, htmp]

/-- C4, witness: a successful build with retention off removes the whole
working tree. -/
theorem c4_cleanup_removes_recorded_paths_witness :
    (build none false).2 = ⟨false, false, false⟩ :=
  (c4_cleanup_removes_recorded_paths none false).2.2 rfl (by decide)

/-- C5, counterexample: `"0"` is not an integer ≥ 1, yet `RepubBuilder::new`
does not fall back to the default with a warning: `"0"` parses as a `u8`
and the subsequent `ok - 1` underflows (panics in debug builds) instead. -/
theorem c5_toc_level_zero_counterexample :
    represents_int_ge1 "0" = false ∧
    set_toc_level "0" ≠ .ok 2 true ∧
    set_toc_level "0" = .panic := by
  exact ⟨by decide, by decide, by decide⟩

/-- C5, amended: every `--toc-level` value that fails to parse as an
unsigned 8-bit integer falls back to the default collapse depth 2, emits a
warning, and the build continues; a value parsing to `n ≥ 1` sets the
collapse depth to `n - 1` without warning; only the value 0 parses and
then underflows the `u8` subtraction. -/
theorem c5_toc_level_fallback (s : String) :
    (parse_u8 s = none → set_toc_level s = .ok 2 true) ∧
    (∀ n, parse_u8 s = some n → 1 ≤ n →
      set_toc_level s = .ok (n - 1) false) := by
  constructor
  · intro h
    simp [set_toc_level, h]
  · intro n h h1
    have hn : n ≠ 0 := by omega
    simp [set_toc_level, h, hn]

/-- C5, witness: a non-numeric value falls back to 2 with a warning; the
value `"3"` parses and yields collapse depth 2 without warning. -/
theorem c5_toc_level_fallback_witness :
    set_toc_level "abc" = .ok 2 true ∧ set_toc_level "3" = .ok 2 false :=
  ⟨(c5_toc_level_fallback "abc").1 (by decide),
   (c5_toc_level_fallback "3").2 3 (by decide) (by decide)⟩

/-- C6, counterexample (negation of the claim): no valid invocation makes
the builder retain the working tree — `main` registers no retention flag,
so `is_present("save_tmp_files")` is false for every command line clap
accepts. -/
theorem c6_no_retention_flag_counterexample :
    ¬ ∃ m : ArgMatches, m.valid ∧ save_tmp_files_of m = true := by
  rintro ⟨m, hv, hs⟩
  have hmem : "save_tmp_files" ∈ m.supplied := by
    simpa [save_tmp_files_of, ArgMatches.is_present,
      List.contains_eq_any_beq, List.any_eq_true] using hs
  have hreg := hv _ hmem
  exact absurd hreg (by decide)

/-- C6, amended: the builder reads a `save_tmp_files` argument, but `main`
never registers one, so the retention setting is false for every valid
invocation and cleanup of the recorded working-tree paths always runs. -/
theorem c6_save_tmp_files_always_false (m : ArgMatches) (hv : m.valid) :
    save_tmp_files_of m = false ∧
    ∀ failAt, (build failAt (save_tmp_files_of m)).2
      = remove_tmp_files (build_core failAt).2.1 (build_core failAt).2.2 := by
  have hfalse : save_tmp_files_of m = false := by
    by_contra hc
    have : save_tmp_files_of m = true := by
      cases h : save_tmp_files_of m
      · exact absurd h hc
      · rfl
    have hmem : "save_tmp_files" ∈ m.supplied := by
      simpa [save_tmp_files_of, ArgMatches.is_present,
        List.contains_eq_any_beq, List.any_eq_true] using this
    exact absurd (hv _ hmem) (by decide)
  refine ⟨hfalse, ?_⟩
  intro failAt
  simp [hfalse, build]

/-- C6, witness at a concrete valid invocation (`input` plus `vertical`). -/
theorem c6_save_tmp_files_always_false_witness :
    save_tmp_files_of ⟨["input", "vertical"]⟩ = false ∧
    ∀ failAt, (build failAt (save_tmp_files_of ⟨["input", "vertical"]⟩)).2
      = remove_tmp_files (build_core failAt).2.1 (build_core failAt).2.2 :=
  c6_save_tmp_files_always_false ⟨["input", "vertical"]⟩
    (by intro a ha; fin_cases ha <;> decide)

/-- C9: `RepubBuilder::new` rejects a missing path, and a file whose
extension is present and is not `md`; and it creates no file or directory,
so in particular no filesystem mutation precedes (or follows) a validation
error, and acceptance leaves the filesystem untouched. -/
theorem c9_validation_before_mutation (p : PathInfo) :
    ((validate_input p).isSome ↔
      (p.pathExists = false ∨ (p.is_file = true ∧
        ∃ e, p.extension = some e ∧ e ≠ "md"))) ∧
    new_created_paths = [] := by
  refine ⟨?_, rfl⟩
  rcases p with ⟨pe, isf, ext⟩
  cases pe
  · simp [validate_input]
  · cases isf
    · simp [validate_input]
    · cases ext with
      | none => simp [validate_input]
      | some e =>
        by_cases he : e = "md" <;> simp [validate_input, he]

/-- C10: an existing file with no extension at all passes input validation
(`None => {}`), and the build then converts that very file as a Markdown
source even though it is not a `.md` file. -/
theorem c10_extensionless_file_accepted (p : PathInfo) (source : String)
    (entries : List (String × Option String))
    (h1 : p.pathExists = true) (h2 : p.is_file = true)
    (h3 : p.extension = none) :
    validate_input p = none ∧
    files_to_convert p.is_file source entries = [source] := by
  constructor
  · simp [validate_input, h1, h2, h3]
  · simp [files_to_convert, h2]

/-- C10, witness at a concrete extensionless file. -/
theorem c10_extensionless_file_accepted_witness :
    validate_input ⟨true, true, none⟩ = none ∧
    files_to_convert (⟨true, true, none⟩ : PathInfo).is_file "notes" []
      = ["notes"] :=
  c10_extensionless_file_accepted ⟨true, true, none⟩ "notes" [] rfl rfl rfl
